import Mathlib

/-
Verification of the CABW preparation-checklist app (src/streamlit_app.py).

Modelling conventions:
* Python values living in `st.session_state` (and in JSON payloads) are
  embedded as the inductive type `PyVal`; `st.session_state` itself is an
  association list `Sess` with Python-dict semantics (`getKey` reads the
  unique binding, `setKey` updates in place or appends, preserving
  insertion order, exactly as a Python dict does).
* `datetime.date` values are embedded as integer day numbers (`PyVal.date`);
  subtracting `timedelta(days = offset)` is integer subtraction, so one unit
  is one calendar day.  `daysFromCivil` maps a proleptic-Gregorian calendar
  date to its day number so that concrete calendar dates can be named.
* The stdlib pair `date.isoformat` / `date.fromisoformat` is modelled by a
  decimal printer/parser on the day number: it keeps the two properties the
  source relies on (parsing inverts printing, and non-date strings such as
  "garbage" fail to parse).
* Floating-point progress ratios are modelled as rationals; all ratios in
  the claims involve integer counts far below any double-rounding boundary.
* Typographic apostrophes replace ASCII apostrophes inside two catalog
  titles; no claim depends on title text.
-/

/-- Python runtime values as stored in `st.session_state` and produced by
`json.loads`: `None`, booleans, integers, strings, lists, dicts and
`datetime.date` objects (the latter never occur in JSON payloads). -/
inductive PyVal where
  | none : PyVal
  | bool (b : Bool) : PyVal
  | int (n : Int) : PyVal
  | str (s : String) : PyVal
  | list (xs : List PyVal) : PyVal
  | dict (kvs : List (String × PyVal)) : PyVal
  | date (d : Int) : PyVal

/-- Python truthiness (`bool(v)`): `None`, `False`, `0`, `""`, `[]` and `{}`
are falsy, everything else (including every `date`) is truthy. -/
def pyTruthy : PyVal → Bool
  | .none => false
  | .bool b => b
  | .int n => n != 0
  | .str s => !s.data.isEmpty
  | .list xs => !xs.isEmpty
  | .dict kvs => !kvs.isEmpty
  | .date _ => true

/-- Dict read `d.get(key)`: the value bound to `key`, if any. -/
def getKey : List (String × PyVal) → String → Option PyVal
  | [], _ => Option.none
  | (k, v) :: rest, key => if k = key then some v else getKey rest key

/-- Dict read with default, `d.get(key, dflt)`. -/
def getKeyD (l : List (String × PyVal)) (key : String) (dflt : PyVal) : PyVal :=
  (getKey l key).getD dflt

/-- Dict write `d[key] = v`: replace the existing binding in place, or append
a new one (Python dicts keep insertion order). -/
def setKey : List (String × PyVal) → String → PyVal → List (String × PyVal)
  | [], key, v => [(key, v)]
  | (k, w) :: rest, key, v =>
      if k = key then (k, v) :: rest else (k, w) :: setKey rest key v

/-- Dict `d.setdefault(key, v)`: insert `key ↦ v` only when `key` is absent. -/
def setdefault (l : List (String × PyVal)) (key : String) (v : PyVal) :
    List (String × PyVal) :=
  if (getKey l key).isSome then l else l ++ [(key, v)]

/-- Boolean list-prefix test, used to embed `str.startswith`. -/
def listPrefix : List Char → List Char → Bool
  | [], _ => true
  | _ :: _, [] => false
  | a :: as, b :: bs => a == b && listPrefix as bs

/-- Python `s.startswith(p)`. -/
def pyStartswith (s p : String) : Bool :=
  listPrefix p.data s.data

/-- Decimal digit characters for the day-number printer. -/
def digitChar (d : Nat) : Char :=
  match d with
  | 0 => '0' | 1 => '1' | 2 => '2' | 3 => '3' | 4 => '4'
  | 5 => '5' | 6 => '6' | 7 => '7' | 8 => '8' | _ => '9'

/-- Decimal printing of a natural number (most significant digit first). -/
def printNat (n : Nat) : List Char :=
  if n = 0 then ['0'] else ((Nat.digits 10 n).reverse).map digitChar

/-- Decimal parsing of a natural number; fails on the empty string and on any
non-digit character. -/
def parseNat (l : List Char) : Option Nat :=
  if l.isEmpty then Option.none
  else if l.all Char.isDigit then
    some (l.foldl (fun acc c => acc * 10 + (c.toNat - 48)) 0)
  else Option.none

/-- Decimal printing of an integer (a `-` sign for negatives). -/
def printInt (i : Int) : List Char :=
  if i < 0 then '-' :: printNat i.natAbs else printNat i.toNat

/-- Decimal parsing of an integer. -/
def parseInt (l : List Char) : Option Int :=
  if l.head? = some '-' then (parseNat l.tail).map (fun (n : Nat) => -(n : Int))
  else (parseNat l).map (fun (n : Nat) => (n : Int))

/-- Model of `date.isoformat`: render the day number in decimal. -/
def isoformat (d : Int) : String :=
  ⟨printInt d⟩

/-- Model of `date.fromisoformat`: parse a decimal day number. -/
def fromisoformat (s : String) : Option Int :=
  parseInt s.data

/-- Day number of a proleptic-Gregorian calendar date (the standard
days-from-civil computation), so concrete dates such as 2025-06-01 can be
named; only differences of day numbers matter to the claims. -/
def daysFromCivil (y m d : Int) : Int :=
  let y' := if m ≤ 2 then y - 1 else y
  let era := y'.fdiv 400
  let yoe := y' - era * 400
  let mp := (m + 9).emod 12
  let doy := (153 * mp + 2).fdiv 5 + d - 1
  let doe := yoe * 365 + yoe.fdiv 4 - yoe.fdiv 100 + doy
  era * 146097 + doe - 719468

/- ------------------------------------------------------------------ -/
/- Round-trip facts for the decimal printer/parser.                    -/
/- ------------------------------------------------------------------ -/

theorem digitChar_isDigit {d : Nat} (h : d < 10) : (digitChar d).isDigit = true := by
  interval_cases d <;> decide

theorem digitChar_toNat {d : Nat} (h : d < 10) : (digitChar d).toNat - 48 = d := by
  interval_cases d <;> decide

theorem printNat_all_digits (n : Nat) : (printNat n).all Char.isDigit = true := by
  unfold printNat
  split
  · decide
  · rw [List.all_eq_true]
    intro c hc
    rw [List.mem_map] at hc
    obtain ⟨d, hd, rfl⟩ := hc
    exact digitChar_isDigit (Nat.digits_lt_base (by norm_num) (List.mem_reverse.mp hd))

theorem printNat_ne_nil (n : Nat) : printNat n ≠ [] := by
  unfold printNat
  split
  · simp
  · simp only [ne_eq, List.map_eq_nil_iff, List.reverse_eq_nil_iff]
    exact Nat.digits_ne_nil_iff_ne_zero.mpr (by omega)

theorem foldl_digits (L : List Nat) (a : Nat) :
    L.foldl (fun x d => x * 10 + d) a = a * 10 ^ L.length + Nat.ofDigits 10 L.reverse := by
  induction L generalizing a with
  | nil => simp [Nat.ofDigits]
  | cons d L ih =>
      have happ : Nat.ofDigits 10 (L.reverse ++ [d])
          = Nat.ofDigits 10 L.reverse + 10 ^ L.reverse.length * Nat.ofDigits 10 [d] := by
        exact_mod_cast Nat.ofDigits_append
      simp only [List.foldl_cons, List.reverse_cons, List.length_cons, ih, happ]
      simp [Nat.ofDigits, pow_succ]
      ring

theorem foldl_map_digitChar (L : List Nat) (hL : ∀ d ∈ L, d < 10) (a : Nat) :
    (L.map digitChar).foldl (fun acc c => acc * 10 + (c.toNat - 48)) a
      = L.foldl (fun x d => x * 10 + d) a := by
  induction L generalizing a with
  | nil => rfl
  | cons d L ih =>
      simp only [List.map_cons, List.foldl_cons]
      rw [digitChar_toNat (hL d (by simp))]
      exact ih (fun x hx => hL x (by simp [hx])) _

theorem printNat_not_isEmpty (n : Nat) : (printNat n).isEmpty = false := by
  rcases hp : printNat n with _ | ⟨c, cs⟩
  · exact absurd hp (printNat_ne_nil n)
  · rfl

theorem parseNat_printNat (n : Nat) : parseNat (printNat n) = some n := by
  have hne := printNat_not_isEmpty n
  have hall := printNat_all_digits n
  simp only [parseNat, hne, hall, Bool.false_eq_true, if_false, if_true, Option.some.injEq]
  unfold printNat
  split
  · next h => subst h; decide
  · rw [foldl_map_digitChar _
        (fun d hd => Nat.digits_lt_base (by norm_num) (List.mem_reverse.mp hd)) 0,
      foldl_digits]
    simp [Nat.ofDigits_digits]

theorem printNat_head_digit (n : Nat) (c : Char) (cs : List Char)
    (h : printNat n = c :: cs) : c.isDigit = true := by
  have := printNat_all_digits n
  rw [h, List.all_cons, Bool.and_eq_true] at this
  exact this.1

theorem parseInt_printInt (i : Int) : parseInt (printInt i) = some i := by
  unfold printInt
  split
  · next hi =>
      unfold parseInt
      rw [if_pos (show (('-' : Char) :: printNat i.natAbs).head? = some '-' from rfl),
        List.tail_cons, parseNat_printNat]
      simp only [Option.map_some']
      have h2 : -((i.natAbs : Nat) : Int) = i := by omega
      rw [h2]
  · next hi =>
      rcases hp : printNat i.toNat with _ | ⟨c, cs⟩
      · exact absurd hp (printNat_ne_nil _)
      · have hc : ¬ ((c :: cs).head? = some '-') := by
          simp only [List.head?_cons, Option.some.injEq]
          intro hcm
          have := printNat_head_digit _ _ _ hp
          rw [hcm] at this
          exact absurd this (by decide)
        unfold parseInt
        rw [if_neg hc, ← hp, parseNat_printNat]
        simp only [Option.map_some']
        have h2 : ((i.toNat : Nat) : Int) = i := by omega
        rw [h2]

theorem fromisoformat_isoformat (d : Int) : fromisoformat (isoformat d) = some d :=
  parseInt_printInt d

/- ------------------------------------------------------------------ -/
/- Session state (`st.session_state`) and the completion store.        -/
/- ------------------------------------------------------------------ -/

/-- The Streamlit session dict `st.session_state`. -/
abbrev Sess : Type :=
  List (String × PyVal)

/-- The page list `PAGES` of the source. -/
def PAGES : List String :=
  ["Antes da Missão", "INSPSAU (Inspeção de Saúde)", "Pagamento", "RAIRE",
   "Passaporte e Visto"]

/-- The `data` slot (manual task lists per page).  `_init_state` guarantees
the key exists, so the absent case (which would raise in Python) is read as
an empty dict. -/
def sessData (sess : Sess) : PyVal :=
  getKeyD sess "data" (.dict [])

/-- The `auth_date` slot.  `_init_state` guarantees the key exists (set to
`None`), so the absent case is read as `None`. -/
def authSlot (sess : Sess) : PyVal :=
  getKeyD sess "auth_date" PyVal.none

/-- The anchor date as an optional day number.  The slot only ever holds a
`date` or `None` (set by `_init_state`, the date picker, or import). -/
def sessDate (sess : Sess) : Option Int :=
  match authSlot sess with
  | .date d => some d
  | _ => Option.none

/-- Source `_init_state`: `data = {page: [] for page in PAGES}` and
`auth_date = None` (the navigation keys do not affect the claims). -/
def init_state : Sess :=
  [("data", PyVal.dict (PAGES.map (fun page => (page, PyVal.list [])))),
   ("auth_date", PyVal.none)]

/-- Source `_get_flag`: `bool(st.session_state.get(f"done-{key}", False))`. -/
def _get_flag (sess : Sess) (key : String) : Bool :=
  pyTruthy (getKeyD sess ("done-" ++ key) (.bool false))

/-- Source `_set_flag`: `st.session_state[f"done-{key}"] = val`. -/
def _set_flag (sess : Sess) (key : String) (val : Bool) : Sess :=
  setKey sess ("done-" ++ key) (.bool val)

/-- Source `_get_tasks`: `st.session_state.data.setdefault(page, [])`, as a
read-only projection (the `setdefault` write inserts exactly the `[]` that
the absent case already reads back, so the projection is observably the
same). -/
def _get_tasks (sess : Sess) (page : String) : PyVal :=
  match sessData sess with
  | .dict kvs => getKeyD kvs page (.list [])
  | _ => .list []

/-- Source `_delete_task`: `st.session_state.data[page].pop(idx)`.  A missing
page or non-list entry raises in Python and is modelled as a no-op; the
claims only use the in-range, well-formed case. -/
def _delete_task (sess : Sess) (page : String) (idx : Nat) : Sess :=
  match sessData sess with
  | .dict kvs =>
      match getKey kvs page with
      | some (.list ts) =>
          setKey sess "data" (.dict (setKey kvs page (.list (ts.eraseIdx idx))))
      | _ => sess
  | _ => sess

/- ------------------------------------------------------------------ -/
/- Task catalogs and the deadline resolver.                            -/
/- ------------------------------------------------------------------ -/

/-- A resolved automatic task `{"title": ..., "deadline": ..., "key": ...}`. -/
structure ResolvedTask where
  title : String
  deadline : Int
  key : String
deriving DecidableEq

/-- Python `enumerate(xs, start = i)`. -/
def enumerate1 {α : Type} : Nat → List α → List (Nat × α)
  | _, [] => []
  | i, a :: as => (i, a) :: enumerate1 (i + 1) as

/-- Python `f"{i:02d}"`: decimal, zero-padded on the left to two digits. -/
def fmt02 (i : Nat) : String :=
  if i < 10 then "0" ++ toString i else toString i

/-- The shared resolver loop of `_get_passaporte_tasks`, `_get_inspsau_tasks`,
`_get_pagamento_tasks` and `_get_raire_tasks`: `if not auth_date: return []`,
then for `i, (offset, title)` in `enumerate(defs, start=1)` emit
`{"title": title, "deadline": auth_date - timedelta(days=offset),
"key": f"{cat}-{i:02d}"}`. -/
def autoTasks (cat : String) (defs : List (Int × String)) (auth : Option Int) :
    List ResolvedTask :=
  match auth with
  | Option.none => []
  | some d =>
      (enumerate1 1 defs).map (fun p =>
        { title := p.2.2, deadline := d - p.2.1, key := cat ++ "-" ++ fmt02 p.1 })

/-- Source `_get_ferias_tasks`: three hard-coded entries with literal keys
`ferias-1`, `ferias-2`, `ferias-3`. -/
def _get_ferias_tasks (auth : Option Int) : List ResolvedTask :=
  match auth with
  | Option.none => []
  | some d =>
      [{ title := "Solicitar Férias no Portal do Militar",
         deadline := d - 100, key := "ferias-1" },
       { title := "Apresentação no Portal do Militar – INÍCIO de Férias",
         deadline := d - 30, key := "ferias-2" },
       { title := "Apresentação no Portal do Militar – TÉRMINO de Férias",
         deadline := d - 1, key := "ferias-3" }]

/-- Source `_PASSAPORTE_DEFS`. -/
def _PASSAPORTE_DEFS : List (Int × String) :=
  [(180, "Fazer contato com o GAP para verificar possibilidade de passaporte pelo DECEA"),
   (155, "Agendar foto"),
   (150, "Elaborar Ofício de Apoio ao GAP solicitando apoio para emissão de passaporte"),
   (150, "Preencher o Formulário MRE (modelo militar) — 1 (uma) via para cada solicitante."),
   (150, "Preencher o Modelo de Autorização para Menor, caso aplicável."),
   (130, "Ofício de Apoio assinado"),
   (130, "FPP ou Portaria (se houver)"),
   (130, "RG Civil"),
   (130, "RG Militar"),
   (130, "CPF"),
   (130, "Certidão de Casamento ou Nascimento (se for o caso)"),
   (130, "Título de Eleitor"),
   (130, "Comprovante de Quitação Eleitoral"),
   (130, "Passaportes Oficiais anteriores, se tiver"),
   (130, "Fotos 5x7 cm (formato digital)"),
   (130, "Assinaturas digitalizadas (modelo em anexo no e-mail)"),
   (120, "Enviar por e-mail ao GAP (Seção de Passaportes)/DECEA ou EMAER: a) Formulários preenchidos; b) Arquivos digitais das fotos e assinaturas; c) Documentação digitalizada (PDF)"),
   (100, "Aguardar o envio dos Recibos MRE (enviados por e-mail após cadastro no sistema do Itamaraty)"),
   (100, "Envio/Entrega das Fotos, Recibos de Entrega e Passaportes antigos"),
   (100, "Aguardar recebimento das cópias dos Passaportes pelo ITAMARATY"),
   (100, "Preenchimento do Formulário DS-160"),
   (100, "Envio dos formulários em versão preto e branco para o GAP-SJ"),
   (70, "Receber os passaportes e vistos")]

/-- Source `_get_passaporte_tasks` (keys `pass-01`, `pass-02`, ...). -/
def _get_passaporte_tasks (auth : Option Int) : List ResolvedTask :=
  autoTasks "pass" _PASSAPORTE_DEFS auth

/-- Source `_INSPSAU_DEFS`. -/
def _INSPSAU_DEFS : List (Int × String) :=
  [(180, "Marcar exames Preventivos (MULHER)"),
   (120, "Marcar Inspeção de Saúde (Letra F) para toda família"),
   (30, "Resultado da INSPSAU publicada em BCA e nas alterações")]

/-- Source `_get_inspsau_tasks` (keys `insp-01`, ...). -/
def _get_inspsau_tasks (auth : Option Int) : List ResolvedTask :=
  autoTasks "insp" _INSPSAU_DEFS auth

/-- Source `_PAGAMENTO_DEFS` (two ASCII apostrophes rendered as `’`). -/
def _PAGAMENTO_DEFS : List (Int × String) :=
  [(90, "Tomar conhecimento das peculiaridades do pagamento no exterior (Módulo 16 do MCA 177-2) e verificar com a UPAG a transcrição da portaria de designação em Boletim Interno."),
   (60, "Preencher dados (portaria, identidade, comprovante de residência) em https://www.bbamericas.com/br/expatriados/ para abertura on-line da conta-corrente no exterior."),
   (60, "Aguardar análise do Banco do Brasil Americas; sanar pendências ou receber confirmação de abertura da conta-corrente por e-mail."),
   (60, "Após abertura da conta e com a data do deslocamento definida, enviar para chefiapp2.dirad@fab.mil.br: Declaração de Embarque (Anexo A), Termo de Ciência (Anexo B) e captura do e-mail do banco com nome e nº da conta."),
   (60, "Enviar a Declaração de Embarque (Anexo A) ao Setor de Pagamento de Pessoal da UPAG."),
   (60, "Receber por e-mail (PP2) a planilha estimativa de retribuição mensal (Anexo C) e, se aplicável, cálculos do FSN (Anexo D) e pensão alimentícia (Anexo E); responder informando a forma de recebimento da Ajuda de Custo de ida."),
   (10, "Se houver obrigação de pensão alimentícia/judicial: preencher a ’Declaração de Pagamento de Pensão Alimentícia durante Missão no Exterior’ (Anexo E) e efetuar, até o dia 5 do mês de embarque, o pagamento da 1ª parcela via GRU (valor de 1 mês)."),
   (10, "Se optar por sacar parte da Ajuda de Custo em espécie: informar à PP2 (por e-mail) com, no mínimo, 8 dias úteis de antecedência a agência (do rol enviado), o valor (US$ múltiplos de 100) e a data do saque; janela entre D-30 e 3 dias úteis antes do embarque."),
   (10, "Se não houver interesse no saque em espécie: informar por e-mail à PP2 para pagamento integral da Ajuda de Custo na conta-corrente do banco credenciado."),
   (10, "Ao receber o Ofício de venda de moeda estrangeira (PP2), conferir e solicitar ajustes; no dia do saque levar o Ofício e documento com foto; após o saque, enviar à PP2/SDPP (chefiapp2.dirad@fab.mil.br) cópia do contrato de câmbio emitido pelo Banco do Brasil SA."),
   (5, "A partir do mês de embarque, regularizar diretamente com as entidades consignatárias os pagamentos devidos durante a missão no exterior.")]

/-- Source `_get_pagamento_tasks` (keys `pay-01`, ...). -/
def _get_pagamento_tasks (auth : Option Int) : List ResolvedTask :=
  autoTasks "pay" _PAGAMENTO_DEFS auth

/-- Source `_RAIRE_DEFS`: positive offsets mean D-XX (before the anchor),
negative offsets mean D+XX (after the anchor). -/
def _RAIRE_DEFS : List (Int × String) :=
  [(30, "Verificar o valor do aluguel em https://raire-pp2-sdpp.streamlit.app/"),
   (-10, "Contrato assinado (Locador/Locatário)"),
   (-15, "Contrato traduzido para Português"),
   (-20, "Declaração de Pagamento (ANEXO H) assinada pelo Adido/Chefe"),
   (-30, "Comprovante de Pagamento (Recibo/NF/Fatura + comprovante bancário)")]

/-- Source `_get_raire_tasks` (keys `raire-01`, ...). -/
def _get_raire_tasks (auth : Option Int) : List ResolvedTask :=
  autoTasks "raire" _RAIRE_DEFS auth

/- ------------------------------------------------------------------ -/
/- Progress aggregation.                                               -/
/- ------------------------------------------------------------------ -/

/-- Truthiness of `t.get("done")` for one manual-task record (`t` is a dict in
every state the app constructs; `.get` on a non-dict would raise). -/
def taskDone (t : PyVal) : Bool :=
  match t with
  | .dict kvs => pyTruthy (getKeyD kvs "done" PyVal.none)
  | _ => false

/-- The underlying list of a manual-task page entry (always a list in every
state the app constructs; `len`/iteration on a non-list would raise). -/
def pyItems (v : PyVal) : List PyVal :=
  match v with
  | .list xs => xs
  | _ => []

/-- Done/total counts of the shared per-catalog progress loop
(`done = sum(1 for t in tasks if _get_flag(t["key"]))`, `total = len(tasks)`). -/
def catProgress (sess : Sess) (tasks : List ResolvedTask) : Nat × Nat :=
  (tasks.countP (fun t => _get_flag sess t.key), tasks.length)

/-- Source `_ferias_progress`. -/
def _ferias_progress (sess : Sess) (auth : Option Int) : Nat × Nat :=
  catProgress sess (_get_ferias_tasks auth)

/-- Source `_passaporte_progress`. -/
def _passaporte_progress (sess : Sess) (auth : Option Int) : Nat × Nat :=
  catProgress sess (_get_passaporte_tasks auth)

/-- Source `_inspsau_progress`. -/
def _inspsau_progress (sess : Sess) (auth : Option Int) : Nat × Nat :=
  catProgress sess (_get_inspsau_tasks auth)

/-- Source `_pagamento_progress`. -/
def _pagamento_progress (sess : Sess) (auth : Option Int) : Nat × Nat :=
  catProgress sess (_get_pagamento_tasks auth)

/-- Source `_raire_progress`. -/
def _raire_progress (sess : Sess) (auth : Option Int) : Nat × Nat :=
  catProgress sess (_get_raire_tasks auth)

/-- Manual done count of `_overall_progress`:
`done += sum(1 for t in tasks if t.get("done"))` over all `PAGES`. -/
def manualDone (sess : Sess) : Nat :=
  (PAGES.map (fun page => (pyItems (_get_tasks sess page)).countP taskDone)).sum

/-- Manual total count of `_overall_progress`: `total += len(tasks)` over all
`PAGES`. -/
def manualTotal (sess : Sess) : Nat :=
  (PAGES.map (fun page => (pyItems (_get_tasks sess page)).length)).sum

/-- Automatic done count of `_overall_progress`
(`f_done + p_done + i_done + pay_done + r_done`). -/
def autoDone (sess : Sess) (ad : Option Int) : Nat :=
  (_ferias_progress sess ad).1 + (_passaporte_progress sess ad).1
    + (_inspsau_progress sess ad).1 + (_pagamento_progress sess ad).1
    + (_raire_progress sess ad).1

/-- Automatic total count of `_overall_progress`
(`f_total + p_total + i_total + pay_total + r_total`). -/
def autoTotal (sess : Sess) (ad : Option Int) : Nat :=
  (_ferias_progress sess ad).2 + (_passaporte_progress sess ad).2
    + (_inspsau_progress sess ad).2 + (_pagamento_progress sess ad).2
    + (_raire_progress sess ad).2

/-- The `(done, total)` pair accumulated by `_overall_progress`: manual tasks
over all `PAGES`, plus the five automatic blocks when
`st.session_state.auth_date` is truthy. -/
def overallCounts (sess : Sess) : Nat × Nat :=
  if pyTruthy (authSlot sess) then
    (manualDone sess + autoDone sess (sessDate sess),
     manualTotal sess + autoTotal sess (sessDate sess))
  else (manualDone sess, manualTotal sess)

/-- The ratio pattern `(done / total) if total else 0.0` of
`_overall_progress` (line 621) and `render_tasks` (line 721). -/
def ratioOf (done total : Nat) : ℚ :=
  if total = 0 then 0 else (done : ℚ) / (total : ℚ)

/-- Source `_overall_progress`. -/
def _overall_progress (sess : Sess) : ℚ :=
  ratioOf (overallCounts sess).1 (overallCounts sess).2

/-- The spec's progress aggregate over `(done_count, total_count)` groups:
the summation/ratio pattern shared by `_overall_progress` and
`render_tasks`, generalized from the fixed group list of the source to an
arbitrary one. -/
def aggregate (groups : List (Nat × Nat)) : ℚ :=
  ratioOf (groups.map Prod.fst).sum (groups.map Prod.snd).sum

/-- Every automatic task key the app generates (the anchor chosen does not
matter; keys are anchor-independent). -/
def allAutoKeys : List String :=
  (_get_ferias_tasks (some 0)).map (fun t => t.key)
    ++ (_get_passaporte_tasks (some 0)).map (fun t => t.key)
    ++ (_get_inspsau_tasks (some 0)).map (fun t => t.key)
    ++ (_get_pagamento_tasks (some 0)).map (fun t => t.key)
    ++ (_get_raire_tasks (some 0)).map (fun t => t.key)

/- ------------------------------------------------------------------ -/
/- Export / import (snapshot serialization).                           -/
/- ------------------------------------------------------------------ -/

/-- The `auth_date` payload field:
`st.session_state.auth_date.isoformat() if st.session_state.auth_date else
None` (the slot only ever holds a date or `None`; `isoformat` on any other
truthy value would raise). -/
def isoOfSlot (v : PyVal) : PyVal :=
  if pyTruthy v then
    match v with
    | .date d => .str (isoformat d)
    | _ => PyVal.none
  else PyVal.none

/-- Source `export_json_button` payload: `lists` is the whole `data` dict,
`auth_date` its ISO rendering, `extras` every session key starting with
`done-`. -/
def export_payload (sess : Sess) : PyVal :=
  .dict [("lists", sessData sess),
         ("auth_date", isoOfSlot (authSlot sess)),
         ("extras", .dict (sess.filter (fun kv => pyStartswith kv.1 "done-")))]

/-- Outcome of `import_json_uploader` on a parsed payload: the success
message, the `isinstance(data, dict)` failure ("Arquivo JSON inválido"), or
a caught exception ("Falha ao importar"). -/
inductive ImportOutcome where
  | success : ImportOutcome
  | invalidJson : ImportOutcome
  | importFailure : ImportOutcome
deriving DecidableEq

/-- The import loop `for page in PAGES: lists.setdefault(page, [])`. -/
def pagesDefault (l : List (String × PyVal)) : List (String × PyVal) :=
  PAGES.foldl (fun acc page => setdefault acc page (.list [])) l

/-- The tail of the import after the `auth_date` assignment: read `extras`
(default `{}`) and write every pair into the session verbatim
(`st.session_state[k] = v`); `.items()` on a non-dict raises. -/
def importExtras (sess : Sess) (fields : List (String × PyVal)) :
    ImportOutcome × Sess :=
  match getKeyD fields "extras" (.dict []) with
  | .dict exs =>
      (ImportOutcome.success, exs.foldl (fun s kv => setKey s kv.1 kv.2) sess)
  | _ => (ImportOutcome.importFailure, sess)

/-- Source `import_json_uploader` on a parsed payload, step by step:
check `isinstance(data, dict)`; take `lists = data.get("lists", {})`
(`setdefault` on a non-dict raises before any state change); default every
page, then assign `st.session_state.data = lists`; then parse `auth_date`
(a truthy unparsable value raises here, after `data` was already replaced);
then write `extras` into the session.  The pair returned is the outcome
together with the session as the handler leaves it. -/
def import_json (sess : Sess) (input : PyVal) : ImportOutcome × Sess :=
  match input with
  | .dict fields =>
      match getKeyD fields "lists" (.dict []) with
      | .dict l =>
          let sess₁ := setKey sess "data" (.dict (pagesDefault l))
          let ad := getKeyD fields "auth_date" PyVal.none
          if pyTruthy ad then
            match ad with
            | .str s =>
                match fromisoformat s with
                | some d => importExtras (setKey sess₁ "auth_date" (.date d)) fields
                | Option.none => (ImportOutcome.importFailure, sess₁)
            | _ => (ImportOutcome.importFailure, sess₁)
          else importExtras (setKey sess₁ "auth_date" PyVal.none) fields
      | _ => (ImportOutcome.importFailure, sess)
  | _ => (ImportOutcome.invalidJson, sess)

/- ------------------------------------------------------------------ -/
/- Dict (association-list) lemmas.                                     -/
/- ------------------------------------------------------------------ -/

theorem getKey_setKey_self (l : List (String × PyVal)) (k : String) (v : PyVal) :
    getKey (setKey l k v) k = some v := by
  induction l with
  | nil => simp [setKey, getKey]
  | cons kv rest ih =>
      rcases kv with ⟨k0, w⟩
      by_cases h : k0 = k
      · subst h
        simp [setKey, getKey]
      · simp [setKey, getKey, h, ih]

theorem getKey_setKey_ne (l : List (String × PyVal)) (k k' : String) (v : PyVal)
    (h : k' ≠ k) : getKey (setKey l k v) k' = getKey l k' := by
  induction l with
  | nil => simp [setKey, getKey, Ne.symm h]
  | cons kv rest ih =>
      rcases kv with ⟨k0, w⟩
      by_cases h0 : k0 = k
      · subst h0
        simp [setKey, getKey, Ne.symm h]
      · by_cases h1 : k0 = k'
        · subst h1
          simp [setKey, getKey, h0]
        · simp [setKey, getKey, h0, h1, ih]

theorem getKey_append (l m : List (String × PyVal)) (x : String) :
    getKey (l ++ m) x
      = match getKey l x with
        | some v => some v
        | Option.none => getKey m x := by
  induction l with
  | nil => simp [getKey]
  | cons kv rest ih =>
      rcases kv with ⟨k0, w⟩
      by_cases h : k0 = x
      · subst h
        simp [getKey]
      · simp [getKey, h, ih]

theorem getKey_foldl_not_mem (es : List (String × PyVal)) (s : List (String × PyVal))
    (x : String) (h : x ∉ es.map Prod.fst) :
    getKey (es.foldl (fun acc kv => setKey acc kv.1 kv.2) s) x = getKey s x := by
  induction es generalizing s with
  | nil => rfl
  | cons e es ih =>
      simp only [List.map_cons, List.mem_cons, not_or] at h
      simp only [List.foldl_cons]
      rw [ih _ h.2, getKey_setKey_ne _ _ _ _ (fun hx => h.1 hx)]

theorem getKey_foldl_mem_nodup (es : List (String × PyVal)) (s : List (String × PyVal))
    (x : String) (v : PyVal) (hn : (es.map Prod.fst).Nodup)
    (hx : getKey es x = some v) :
    getKey (es.foldl (fun acc kv => setKey acc kv.1 kv.2) s) x = some v := by
  induction es generalizing s with
  | nil => simp [getKey] at hx
  | cons e es ih =>
      rcases e with ⟨k, w⟩
      simp only [List.map_cons, List.nodup_cons] at hn
      simp only [List.foldl_cons]
      by_cases hkx : k = x
      · subst hkx
        have hv : w = v := by
          simpa [getKey] using hx
        subst hv
        rw [getKey_foldl_not_mem _ _ _ hn.1, getKey_setKey_self]
      · have hx' : getKey es x = some v := by
          simpa [getKey, hkx] using hx
        exact ih _ hn.2 hx'

theorem getKey_filter_done (sess : Sess) (x : String)
    (hx : pyStartswith x "done-" = true) :
    getKey (sess.filter (fun kv => pyStartswith kv.1 "done-")) x = getKey sess x := by
  induction sess with
  | nil => rfl
  | cons kv rest ih =>
      rcases kv with ⟨k, w⟩
      by_cases hk : k = x
      · subst hk
        rw [List.filter_cons_of_pos (by simpa using hx)]
        simp [getKey]
      · cases hp : pyStartswith k "done-"
        · rw [List.filter_cons_of_neg (by simpa using hp)]
          simp [getKey, hk, ih]
        · rw [List.filter_cons_of_pos (by simpa using hp)]
          simp [getKey, hk, ih]

/- ------------------------------------------------------------------ -/
/- String-key facts.                                                   -/
/- ------------------------------------------------------------------ -/

theorem done_key_inj {a b : String} (h : "done-" ++ a = "done-" ++ b) : a = b := by
  have hd := congrArg String.data h
  simp only [String.data_append] at hd
  have hab : a.data = b.data := by simpa using hd
  cases a
  cases b
  simp_all

theorem done_key_ne_data (k : String) : ("done-" ++ k) ≠ "data" := by
  intro h
  have hd : ('d' :: 'o' :: 'n' :: 'e' :: '-' :: k.data) = "data".data := congrArg String.data h
  simp at hd

theorem done_key_ne_auth (k : String) : ("done-" ++ k) ≠ "auth_date" := by
  intro h
  have hd : ('d' :: 'o' :: 'n' :: 'e' :: '-' :: k.data) = "auth_date".data :=
    congrArg String.data h
  simp at hd

theorem startswith_done_append (k : String) :
    pyStartswith ("done-" ++ k) "done-" = true := rfl

theorem listPrefix_exists {p s : List Char} (h : listPrefix p s = true) :
    ∃ t, s = p ++ t := by
  induction p generalizing s with
  | nil => exact ⟨s, rfl⟩
  | cons a as ih =>
      cases s with
      | nil => simp [listPrefix] at h
      | cons b bs =>
          simp only [listPrefix, Bool.and_eq_true, beq_iff_eq] at h
          obtain ⟨t, ht⟩ := ih h.2
          exact ⟨t, by simp [h.1, ht]⟩

theorem startswith_done_shape {k : String} (h : pyStartswith k "done-" = true) :
    k ≠ "data" ∧ k ≠ "auth_date" := by
  obtain ⟨t, ht⟩ := listPrefix_exists h
  constructor
  · intro hk
    rw [hk] at ht
    simp at ht
  · intro hk
    rw [hk] at ht
    simp at ht

/- ------------------------------------------------------------------ -/
/- Session projection lemmas.                                          -/
/- ------------------------------------------------------------------ -/

theorem sessData_setKey_data (sess : Sess) (v : PyVal) :
    sessData (setKey sess "data" v) = v := by
  simp [sessData, getKeyD, getKey_setKey_self]

theorem authSlot_setKey_auth (sess : Sess) (v : PyVal) :
    authSlot (setKey sess "auth_date" v) = v := by
  simp [authSlot, getKeyD, getKey_setKey_self]

theorem sessData_setKey_ne (sess : Sess) (k : String) (v : PyVal) (h : k ≠ "data") :
    sessData (setKey sess k v) = sessData sess := by
  simp [sessData, getKeyD, getKey_setKey_ne _ _ _ _ (Ne.symm h)]

theorem authSlot_setKey_ne (sess : Sess) (k : String) (v : PyVal) (h : k ≠ "auth_date") :
    authSlot (setKey sess k v) = authSlot sess := by
  simp [authSlot, getKeyD, getKey_setKey_ne _ _ _ _ (Ne.symm h)]

theorem get_flag_setKey_ne (sess : Sess) (x : String) (v : PyVal) (key : String)
    (h : x ≠ "done-" ++ key) :
    _get_flag (setKey sess x v) key = _get_flag sess key := by
  unfold _get_flag getKeyD
  rw [getKey_setKey_ne _ _ _ _ (Ne.symm h)]

theorem get_flag_set_flag (sess : Sess) (k : String) (b : Bool) (k' : String) :
    _get_flag (_set_flag sess k b) k' = if k' = k then b else _get_flag sess k' := by
  by_cases h : k' = k
  · subst h
    simp [_get_flag, _set_flag, getKeyD, getKey_setKey_self, pyTruthy]
  · rw [if_neg h]
    exact get_flag_setKey_ne _ _ _ _ (fun hx => h (done_key_inj hx).symm)

theorem tasks_set_flag (sess : Sess) (k : String) (b : Bool) (page : String) :
    _get_tasks (_set_flag sess k b) page = _get_tasks sess page := by
  unfold _get_tasks _set_flag
  rw [sessData_setKey_ne _ _ _ (done_key_ne_data k)]

theorem authSlot_set_flag (sess : Sess) (k : String) (b : Bool) :
    authSlot (_set_flag sess k b) = authSlot sess :=
  authSlot_setKey_ne _ _ _ (done_key_ne_auth k)

theorem getKeyD_setdefault (l : List (String × PyVal)) (p c : String) :
    getKeyD (setdefault l p (.list [])) c (.list []) = getKeyD l c (.list []) := by
  unfold setdefault
  split
  · rfl
  · next h =>
      unfold getKeyD
      rw [getKey_append]
      cases hg : getKey l c with
      | some v => simp
      | none =>
          by_cases hc : p = c
          · subst hc
            simp [getKey]
          · simp [getKey, hc]

theorem getKeyD_pages_foldl (pages : List String) (l : List (String × PyVal)) (c : String) :
    getKeyD (pages.foldl (fun acc page => setdefault acc page (.list [])) l) c (.list [])
      = getKeyD l c (.list []) := by
  induction pages generalizing l with
  | nil => rfl
  | cons p ps ih => rw [List.foldl_cons, ih, getKeyD_setdefault]

/- ------------------------------------------------------------------ -/
/- Counting lemmas for flag toggles.                                   -/
/- ------------------------------------------------------------------ -/

theorem countP_toggle_true (keys : List String) (g : String → Bool) (k : String)
    (h : g k = false) :
    keys.countP (fun x => if x = k then true else g x)
      = keys.countP g + keys.count k := by
  induction keys with
  | nil => simp
  | cons a as ih =>
      by_cases ha : a = k
      · subst ha
        simp only [List.countP_cons, List.count_cons, if_pos rfl, h, ih]
        simp
        omega
      · simp only [List.countP_cons, List.count_cons, if_neg ha, ih]
        have hb : (a == k) = false := by simpa using ha
        simp [hb]
        omega

theorem countP_toggle_false (keys : List String) (g : String → Bool) (k : String)
    (h : g k = true) :
    keys.countP g
      = keys.countP (fun x => if x = k then false else g x) + keys.count k := by
  induction keys with
  | nil => simp
  | cons a as ih =>
      by_cases ha : a = k
      · subst ha
        simp only [List.countP_cons, List.count_cons, if_pos rfl, h, ih]
        simp
        omega
      · simp only [List.countP_cons, List.count_cons, if_neg ha, ih]
        have hb : (a == k) = false := by simpa using ha
        simp [hb]
        omega

/- ------------------------------------------------------------------ -/
/- Resolver lemmas.                                                    -/
/- ------------------------------------------------------------------ -/

theorem enumerate1_length {α : Type} (i : Nat) (l : List α) :
    (enumerate1 i l).length = l.length := by
  induction l generalizing i with
  | nil => rfl
  | cons a as ih => simp [enumerate1, ih]

theorem enumerate1_getElem? {α : Type} (i : Nat) (l : List α) (j : Nat) :
    (enumerate1 i l)[j]? = l[j]?.map (fun a => (i + j, a)) := by
  induction l generalizing i j with
  | nil => simp [enumerate1]
  | cons a as ih =>
      cases j with
      | zero => simp [enumerate1]
      | succ j =>
          simp only [enumerate1, List.getElem?_cons_succ, ih]
          cases as[j]? with
          | none => rfl
          | some b => simp [Nat.add_assoc, Nat.add_comm 1 j]

theorem autoTasks_length (cat : String) (defs : List (Int × String)) (d : Int) :
    (autoTasks cat defs (some d)).length = defs.length := by
  simp [autoTasks, enumerate1_length]

theorem autoTasks_getElem? (cat : String) (defs : List (Int × String)) (d : Int) (j : Nat) :
    (autoTasks cat defs (some d))[j]?
      = defs[j]?.map (fun od =>
          { title := od.2, deadline := d - od.1, key := cat ++ "-" ++ fmt02 (j + 1) }) := by
  simp only [autoTasks, List.getElem?_map, enumerate1_getElem?]
  cases defs[j]? with
  | none => rfl
  | some od => simp [Nat.add_comm 1 j]

theorem autoTasks_keys_stable (cat : String) (defs : List (Int × String)) (d : Int) :
    (autoTasks cat defs (some d)).map (fun t => t.key)
      = (enumerate1 1 defs).map (fun p => cat ++ "-" ++ fmt02 p.1) := by
  simp [autoTasks, List.map_map]

/- ------------------------------------------------------------------ -/
/- Import path lemmas.                                                 -/
/- ------------------------------------------------------------------ -/

theorem getKey_eq_none_iff (l : List (String × PyVal)) (x : String) :
    getKey l x = Option.none ↔ x ∉ l.map Prod.fst := by
  induction l with
  | nil => simp [getKey]
  | cons kv rest ih =>
      rcases kv with ⟨k, w⟩
      by_cases h : k = x
      · subst h
        simp [getKey]
      · simp [getKey, h, ih, Ne.symm h]

theorem nodup_filter_done_keys (sess : Sess) (hn : (sess.map Prod.fst).Nodup) :
    ((sess.filter (fun kv => pyStartswith kv.1 "done-")).map Prod.fst).Nodup :=
  hn.sublist ((List.filter_sublist sess).map Prod.fst)

theorem mem_filter_done_keys (sess : Sess) (x : String)
    (h : x ∈ (sess.filter (fun kv => pyStartswith kv.1 "done-")).map Prod.fst) :
    pyStartswith x "done-" = true := by
  rw [List.mem_map] at h
  obtain ⟨kv, hkv, rfl⟩ := h
  exact (List.mem_filter.mp hkv).2

theorem get_flag_foldl (exs : List (String × PyVal)) (s : Sess) (key : String)
    (hn : (exs.map Prod.fst).Nodup) :
    _get_flag (exs.foldl (fun acc kv => setKey acc kv.1 kv.2) s) key
      = match getKey exs ("done-" ++ key) with
        | some v => pyTruthy v
        | Option.none => _get_flag s key := by
  cases hx : getKey exs ("done-" ++ key) with
  | some v =>
      unfold _get_flag getKeyD
      rw [getKey_foldl_mem_nodup _ _ _ _ hn hx]
      rfl
  | none =>
      have hmem : ("done-" ++ key) ∉ exs.map Prod.fst := (getKey_eq_none_iff _ _).mp hx
      unfold _get_flag getKeyD
      rw [getKey_foldl_not_mem _ _ _ hmem]

theorem fromisoformat_some_truthy {s : String} {d : Int}
    (h : fromisoformat s = some d) : pyTruthy (PyVal.str s) = true := by
  cases hs : s.data with
  | nil =>
      unfold fromisoformat at h
      rw [hs] at h
      simp [parseInt, parseNat] at h
  | cons c cs => simp [pyTruthy, hs]

theorem import_json_dict (sess : Sess) (fields : List (String × PyVal)) :
    import_json sess (.dict fields)
      = match getKeyD fields "lists" (.dict []) with
        | .dict l =>
            let sess₁ := setKey sess "data" (.dict (pagesDefault l))
            let ad := getKeyD fields "auth_date" PyVal.none
            if pyTruthy ad then
              match ad with
              | .str s =>
                  match fromisoformat s with
                  | some d => importExtras (setKey sess₁ "auth_date" (.date d)) fields
                  | Option.none => (ImportOutcome.importFailure, sess₁)
              | _ => (ImportOutcome.importFailure, sess₁)
            else importExtras (setKey sess₁ "auth_date" PyVal.none) fields
        | _ => (ImportOutcome.importFailure, sess) := rfl

theorem importExtras_eq (sess : Sess) (fields exs : List (String × PyVal))
    (hex : getKeyD fields "extras" (.dict []) = .dict exs) :
    importExtras sess fields
      = (ImportOutcome.success, exs.foldl (fun acc kv => setKey acc kv.1 kv.2) sess) := by
  unfold importExtras
  rw [hex]

theorem import_json_eq_falsy (sess : Sess) (fields l : List (String × PyVal))
    (hl : getKeyD fields "lists" (.dict []) = .dict l)
    (ha : pyTruthy (getKeyD fields "auth_date" PyVal.none) = false) :
    import_json sess (.dict fields)
      = importExtras
          (setKey (setKey sess "data" (.dict (pagesDefault l))) "auth_date" PyVal.none)
          fields := by
  rw [import_json_dict, hl]
  simp only [ha, Bool.false_eq_true, if_false]

theorem import_json_eq_str (sess : Sess) (fields l : List (String × PyVal))
    (s : String) (d : Int)
    (hl : getKeyD fields "lists" (.dict []) = .dict l)
    (has : getKeyD fields "auth_date" PyVal.none = PyVal.str s)
    (hp : fromisoformat s = some d) :
    import_json sess (.dict fields)
      = importExtras
          (setKey (setKey sess "data" (.dict (pagesDefault l))) "auth_date" (.date d))
          fields := by
  rw [import_json_dict, hl]
  simp only [has, fromisoformat_some_truthy hp, if_true, hp]

theorem import_json_eq_badauth (sess : Sess) (fields l : List (String × PyVal))
    (hl : getKeyD fields "lists" (.dict []) = .dict l)
    (ha : pyTruthy (getKeyD fields "auth_date" PyVal.none) = true)
    (hbad : ∀ s, getKeyD fields "auth_date" PyVal.none = PyVal.str s →
      fromisoformat s = Option.none) :
    import_json sess (.dict fields)
      = (ImportOutcome.importFailure,
         setKey sess "data" (.dict (pagesDefault l))) := by
  rw [import_json_dict, hl]
  simp only [ha, if_true]
  cases had : getKeyD fields "auth_date" PyVal.none with
  | str s => simp [hbad s had]
  | none => simp [had, pyTruthy] at ha
  | bool b => rfl
  | int n => rfl
  | list xs => rfl
  | dict kvs => rfl
  | date d => rfl

/- ------------------------------------------------------------------ -/
/- Round-trip core.                                                    -/
/- ------------------------------------------------------------------ -/

theorem getKeyD_pagesDefault (l : List (String × PyVal)) (c : String) :
    getKeyD (pagesDefault l) c (.list []) = getKeyD l c (.list []) :=
  getKeyD_pages_foldl PAGES l c

/-- Observable store state: anchor slot, manual lists per category (with
order), completion flags. -/
def observEq (a b : Sess) : Prop :=
  authSlot a = authSlot b
    ∧ (∀ page, _get_tasks a page = _get_tasks b page)
    ∧ (∀ key, _get_flag a key = _get_flag b key)

/-- Session well-formedness maintained by the app: dict keys are unique
(a Python dict invariant), the `data` slot is a dict, and the `auth_date`
slot is `None` or a date. -/
def sessWF (sess : Sess) : Prop :=
  (sess.map Prod.fst).Nodup
    ∧ (∃ l, sessData sess = PyVal.dict l)
    ∧ (authSlot sess = PyVal.none ∨ ∃ d, authSlot sess = PyVal.date d)

theorem roundtrip_core (sess : Sess) (l : List (String × PyVal)) (av : PyVal)
    (hnd : (sess.map Prod.fst).Nodup)
    (hl : sessData sess = PyVal.dict l) :
    authSlot ((sess.filter (fun kv => pyStartswith kv.1 "done-")).foldl
        (fun acc kv => setKey acc kv.1 kv.2)
        (setKey (setKey sess "data" (.dict (pagesDefault l))) "auth_date" av)) = av
      ∧ (∀ page,
          _get_tasks ((sess.filter (fun kv => pyStartswith kv.1 "done-")).foldl
            (fun acc kv => setKey acc kv.1 kv.2)
            (setKey (setKey sess "data" (.dict (pagesDefault l))) "auth_date" av)) page
          = _get_tasks sess page)
      ∧ (∀ key,
          _get_flag ((sess.filter (fun kv => pyStartswith kv.1 "done-")).foldl
            (fun acc kv => setKey acc kv.1 kv.2)
            (setKey (setKey sess "data" (.dict (pagesDefault l))) "auth_date" av)) key
          = _get_flag sess key) := by
  have hnotmem_auth :
      "auth_date" ∉ (sess.filter (fun kv => pyStartswith kv.1 "done-")).map Prod.fst :=
    fun hm => (startswith_done_shape (mem_filter_done_keys _ _ hm)).2 rfl
  have hnotmem_data :
      "data" ∉ (sess.filter (fun kv => pyStartswith kv.1 "done-")).map Prod.fst :=
    fun hm => (startswith_done_shape (mem_filter_done_keys _ _ hm)).1 rfl
  refine ⟨?_, ?_, ?_⟩
  · unfold authSlot getKeyD
    rw [getKey_foldl_not_mem _ _ _ hnotmem_auth]
    have := authSlot_setKey_auth (setKey sess "data" (.dict (pagesDefault l))) av
    unfold authSlot getKeyD at this
    rw [this]
  · intro page
    have hdres : sessData ((sess.filter (fun kv => pyStartswith kv.1 "done-")).foldl
        (fun acc kv => setKey acc kv.1 kv.2)
        (setKey (setKey sess "data" (.dict (pagesDefault l))) "auth_date" av))
        = PyVal.dict (pagesDefault l) := by
      unfold sessData getKeyD
      rw [getKey_foldl_not_mem _ _ _ hnotmem_data]
      have h1 := sessData_setKey_ne (setKey sess "data" (.dict (pagesDefault l)))
        "auth_date" av (by decide)
      have h2 := sessData_setKey_data sess (.dict (pagesDefault l))
      unfold sessData getKeyD at h1 h2
      rw [h1, h2]
    unfold _get_tasks
    rw [hdres, hl]
    show getKeyD (pagesDefault l) page (.list []) = getKeyD l page (.list [])
    exact getKeyD_pagesDefault l page
  · intro key
    rw [get_flag_foldl _ _ _ (nodup_filter_done_keys sess hnd)]
    cases hx : getKey (sess.filter (fun kv => pyStartswith kv.1 "done-"))
        ("done-" ++ key) with
    | some v =>
        rw [getKey_filter_done sess _ (startswith_done_append key)] at hx
        unfold _get_flag getKeyD
        rw [hx]
        rfl
    | none =>
        rw [get_flag_setKey_ne _ _ _ _ (Ne.symm (done_key_ne_auth key)),
          get_flag_setKey_ne _ _ _ _ (Ne.symm (done_key_ne_data key))]

/-- C4: deserializing the snapshot produced by serializing a session yields a
session observably equal to it: same anchor-date slot, same manual task
lists per category in order, same completion flags. -/
theorem serialize_roundtrip (sess : Sess) (h : sessWF sess) :
    (import_json sess (export_payload sess)).1 = ImportOutcome.success
      ∧ observEq (import_json sess (export_payload sess)).2 sess := by
  obtain ⟨hnd, ⟨l, hl⟩, hauth⟩ := h
  have hfl : getKeyD [("lists", sessData sess),
      ("auth_date", isoOfSlot (authSlot sess)),
      ("extras", PyVal.dict (sess.filter (fun kv => pyStartswith kv.1 "done-")))]
      "lists" (.dict []) = PyVal.dict l := hl
  have hfe : getKeyD [("lists", sessData sess),
      ("auth_date", isoOfSlot (authSlot sess)),
      ("extras", PyVal.dict (sess.filter (fun kv => pyStartswith kv.1 "done-")))]
      "extras" (.dict [])
      = PyVal.dict (sess.filter (fun kv => pyStartswith kv.1 "done-")) := rfl
  simp only [export_payload]
  rcases hauth with hnone | ⟨d, hdate⟩
  · have ha : pyTruthy (getKeyD [("lists", sessData sess),
        ("auth_date", isoOfSlot (authSlot sess)),
        ("extras", PyVal.dict (sess.filter (fun kv => pyStartswith kv.1 "done-")))]
        "auth_date" PyVal.none) = false := by
      rw [show getKeyD [("lists", sessData sess),
        ("auth_date", isoOfSlot (authSlot sess)),
        ("extras", PyVal.dict (sess.filter (fun kv => pyStartswith kv.1 "done-")))]
        "auth_date" PyVal.none = isoOfSlot (authSlot sess) from rfl, hnone]
      rfl
    rw [import_json_eq_falsy sess _ l hfl ha, importExtras_eq _ _ _ hfe]
    obtain ⟨h1, h2, h3⟩ := roundtrip_core sess l PyVal.none hnd hl
    exact ⟨rfl, by rw [h1, hnone], h2, h3⟩
  · have has : getKeyD [("lists", sessData sess),
        ("auth_date", isoOfSlot (authSlot sess)),
        ("extras", PyVal.dict (sess.filter (fun kv => pyStartswith kv.1 "done-")))]
        "auth_date" PyVal.none = PyVal.str (isoformat d) := by
      rw [show getKeyD [("lists", sessData sess),
        ("auth_date", isoOfSlot (authSlot sess)),
        ("extras", PyVal.dict (sess.filter (fun kv => pyStartswith kv.1 "done-")))]
        "auth_date" PyVal.none = isoOfSlot (authSlot sess) from rfl, hdate]
      rfl
    rw [import_json_eq_str sess _ l (isoformat d) d hfl has (fromisoformat_isoformat d),
      importExtras_eq _ _ _ hfe]
    obtain ⟨h1, h2, h3⟩ := roundtrip_core sess l (PyVal.date d) hnd hl
    exact ⟨rfl, by rw [h1, hdate], h2, h3⟩

/- ------------------------------------------------------------------ -/
/- Import failure behaviour (C5) and flag merging (C6).                -/
/- ------------------------------------------------------------------ -/

/-- A well-formed `auth_date` payload field: falsy (treated as `None`), or a
string that parses as a date. -/
def authOkField (v : PyVal) : Prop :=
  pyTruthy v = false ∨ ∃ s d, v = PyVal.str s ∧ fromisoformat s = some d

/-- C5 (amended): importing a non-mapping fails and leaves the session
unchanged; importing a mapping whose `auth_date` is truthy but unparsable
fails, but only the anchor slot and the flags are unchanged — the manual
lists have already been replaced by the snapshot's, so the reject is not
atomic. -/
theorem import_failure_spec (sess : Sess) (input : PyVal) :
    ((∀ fields, input ≠ PyVal.dict fields) →
      import_json sess input = (ImportOutcome.invalidJson, sess))
    ∧ (∀ fields l, input = PyVal.dict fields →
        getKeyD fields "lists" (.dict []) = .dict l →
        pyTruthy (getKeyD fields "auth_date" PyVal.none) = true →
        (∀ s, getKeyD fields "auth_date" PyVal.none = PyVal.str s →
          fromisoformat s = Option.none) →
        (import_json sess input).1 = ImportOutcome.importFailure
          ∧ authSlot (import_json sess input).2 = authSlot sess
          ∧ (∀ key, _get_flag (import_json sess input).2 key = _get_flag sess key)
          ∧ sessData (import_json sess input).2 = .dict (pagesDefault l)) := by
  constructor
  · intro hnd
    cases input with
    | dict fields => exact absurd rfl (hnd fields)
    | none => rfl
    | bool b => rfl
    | int n => rfl
    | str s => rfl
    | list xs => rfl
    | date d => rfl
  · rintro fields l rfl hl ha hbad
    rw [import_json_eq_badauth sess fields l hl ha hbad]
    refine ⟨rfl, ?_, ?_, ?_⟩
    · exact authSlot_setKey_ne sess "data" _ (by decide)
    · intro key
      exact get_flag_setKey_ne sess "data" _ key (Ne.symm (done_key_ne_data key))
    · exact sessData_setKey_data sess _

/-- Prior session for the C5 counterexample: one manual task on the
"Pagamento" page, no anchor date. -/
def sessC5 : Sess :=
  [("data", PyVal.dict [("Pagamento", PyVal.list
      [PyVal.dict [("title", PyVal.str "t"), ("done", PyVal.bool false),
                   ("notes", PyVal.str "")]])]),
   ("auth_date", PyVal.none)]

/-- C5 counterexample input: well-formed lists, unparsable anchor date. -/
def inC5 : PyVal :=
  .dict [("lists", .dict []), ("auth_date", .str "garbage")]

/-- C5 counterexample: importing `inC5` into `sessC5` fails, yet the manual
list of the "Pagamento" page has already been replaced (one task before the
import, none after), contradicting the claimed atomic replace-or-reject. -/
theorem import_atomicity_cex :
    (import_json sessC5 inC5).1 = ImportOutcome.importFailure
      ∧ (pyItems (_get_tasks sessC5 "Pagamento")).length = 1
      ∧ (pyItems (_get_tasks (import_json sessC5 inC5).2 "Pagamento")).length = 0 :=
  ⟨rfl, rfl, rfl⟩

/-- C6 (amended): a successful import replaces the manual lists and the
anchor date wholesale, but merges the snapshot's `extras` into the existing
flags: afterwards a flag reads true exactly when `extras` binds its key to a
truthy value, or omits its key and the flag read true before. -/
theorem import_flags_merge_spec (sess : Sess) (fields l exs : List (String × PyVal))
    (hl : getKeyD fields "lists" (.dict []) = .dict l)
    (ha : authOkField (getKeyD fields "auth_date" PyVal.none))
    (hex : getKeyD fields "extras" (.dict []) = .dict exs)
    (hn : (exs.map Prod.fst).Nodup) :
    (import_json sess (.dict fields)).1 = ImportOutcome.success
      ∧ ∀ key, _get_flag (import_json sess (.dict fields)).2 key
          = match getKey exs ("done-" ++ key) with
            | some v => pyTruthy v
            | Option.none => _get_flag sess key := by
  have hbase : ∀ av key,
      _get_flag (setKey (setKey sess "data" (.dict (pagesDefault l))) "auth_date" av) key
        = _get_flag sess key := fun av key => by
    rw [get_flag_setKey_ne _ _ _ _ (Ne.symm (done_key_ne_auth key)),
      get_flag_setKey_ne _ _ _ _ (Ne.symm (done_key_ne_data key))]
  rcases ha with hfalsy | ⟨s, d, hstr, hparse⟩
  · rw [import_json_eq_falsy sess fields l hl hfalsy, importExtras_eq _ _ _ hex]
    refine ⟨rfl, fun key => ?_⟩
    rw [get_flag_foldl _ _ _ hn]
    cases getKey exs ("done-" ++ key) with
    | some v => rfl
    | none => exact hbase _ key
  · rw [import_json_eq_str sess fields l s d hl hstr hparse, importExtras_eq _ _ _ hex]
    refine ⟨rfl, fun key => ?_⟩
    rw [get_flag_foldl _ _ _ hn]
    cases getKey exs ("done-" ++ key) with
    | some v => rfl
    | none => exact hbase _ key

/-- Prior session for the C6 counterexample: the flag `pass-01` is set. -/
def sessC6 : Sess :=
  [("data", PyVal.dict []), ("auth_date", PyVal.none),
   ("done-pass-01", PyVal.bool true)]

/-- C6 counterexample input: a well-formed snapshot whose `extras` is empty. -/
def inC6 : PyVal :=
  .dict [("lists", .dict []), ("auth_date", PyVal.none), ("extras", .dict [])]

/-- C6 counterexample: importing a snapshot with empty `extras` succeeds, yet
the previously set flag `pass-01` still reads true afterwards — the set of
true flags after import is not the set mapped to true by the snapshot's
extras. -/
theorem import_merge_cex :
    (import_json sessC6 inC6).1 = ImportOutcome.success
      ∧ getKey ([] : List (String × PyVal)) ("done-" ++ "pass-01") = Option.none
      ∧ _get_flag (import_json sessC6 inC6).2 "pass-01" = true :=
  ⟨rfl, rfl, rfl⟩

/- ------------------------------------------------------------------ -/
/- Resolver claims (C1, C2, C8).                                       -/
/- ------------------------------------------------------------------ -/

/-- C1: for every anchor and catalog, the task at 0-based index `j`
(1-based position `j + 1`) has deadline `anchor - offset`; a negative offset
lands `|offset|` days after the anchor; the ferias catalog (offsets 100, 30,
1) follows the same rule. -/
theorem resolve_deadline_spec (cat : String) (defs : List (Int × String)) (d : Int)
    (j : Nat) (offset : Int) (title : String)
    (h : defs[j]? = some (offset, title)) :
    (autoTasks cat defs (some d))[j]?
        = some { title := title, deadline := d - offset,
                 key := cat ++ "-" ++ fmt02 (j + 1) }
      ∧ (offset < 0 → d - offset = d + (offset.natAbs : Int) ∧ d < d - offset)
      ∧ (_get_ferias_tasks (some d)).map (fun t => t.deadline)
          = [d - 100, d - 30, d - 1] := by
  refine ⟨?_, fun hneg => ⟨by omega, by omega⟩, rfl⟩
  rw [autoTasks_getElem?, h]
  rfl

/-- C2 counterexample: the ferias catalog does not use the zero-padded
`{category}-{i:02d}` key format — its first key is `ferias-1`, not
`ferias-01`. -/
theorem ferias_key_padding_cex :
    (_get_ferias_tasks (some 0)).map (fun t => t.key)
        = ["ferias-1", "ferias-2", "ferias-3"]
      ∧ fmt02 1 = "01"
      ∧ "ferias-1" ≠ "ferias-" ++ fmt02 1 := by
  refine ⟨rfl, rfl, ?_⟩
  decide

/-- C2 (amended): the four enumerate-style catalogs produce keys
`{category}-{i:02d}` at 1-based position `i`, key lists do not depend on the
anchor date (stability), and all automatic keys across the five catalogs
(including the unpadded `ferias-N` ones) are pairwise distinct. -/
theorem resolve_keys_spec (cat : String) (defs : List (Int × String)) (d d' : Int)
    (j : Nat) (h : j < defs.length) :
    ((autoTasks cat defs (some d)).map (fun t => t.key))[j]?
        = some (cat ++ "-" ++ fmt02 (j + 1))
      ∧ (autoTasks cat defs (some d)).map (fun t => t.key)
          = (autoTasks cat defs (some d')).map (fun t => t.key)
      ∧ allAutoKeys.Nodup := by
  refine ⟨?_, by rw [autoTasks_keys_stable, autoTasks_keys_stable], by decide⟩
  rw [List.getElem?_map, autoTasks_getElem?, List.getElem?_eq_getElem h]
  rfl

/-- C8: resolving any catalog against an absent anchor date yields the empty
list, with no error. -/
theorem resolve_none_empty :
    (∀ cat defs, autoTasks cat defs Option.none = [])
      ∧ _get_ferias_tasks Option.none = []
      ∧ _get_passaporte_tasks Option.none = []
      ∧ _get_inspsau_tasks Option.none = []
      ∧ _get_pagamento_tasks Option.none = []
      ∧ _get_raire_tasks Option.none = [] :=
  ⟨fun _ _ => rfl, rfl, rfl, rfl, rfl, rfl⟩

/- ------------------------------------------------------------------ -/
/- Aggregation claim (C3).                                             -/
/- ------------------------------------------------------------------ -/

/-- C3: the progress aggregate is the sum of done counts over the sum of
total counts, exactly 0 when the summed total is 0 (no error); the three
cited examples hold, and `_overall_progress` is the aggregate of its own
single accumulated group. -/
theorem aggregate_spec :
    aggregate [] = 0
      ∧ aggregate [(0, 0)] = 0
      ∧ aggregate [(2, 4), (1, 1)] = 3 / 5
      ∧ (∀ groups : List (Nat × Nat),
          (groups.map Prod.snd).sum = 0 → aggregate groups = 0)
      ∧ (∀ groups : List (Nat × Nat), (groups.map Prod.snd).sum ≠ 0 →
          aggregate groups
            = ((groups.map Prod.fst).sum : ℚ) / ((groups.map Prod.snd).sum : ℚ))
      ∧ (∀ sess : Sess, _overall_progress sess = aggregate [overallCounts sess]) := by
  refine ⟨rfl, rfl, by norm_num [aggregate, ratioOf], ?_, ?_, ?_⟩
  · intro groups hz
    simp [aggregate, ratioOf, hz]
  · intro groups hz
    simp [aggregate, ratioOf, hz]
  · intro sess
    simp [aggregate, ratioOf, _overall_progress]

/- ------------------------------------------------------------------ -/
/- Manual-task deletion (C9).                                          -/
/- ------------------------------------------------------------------ -/

/-- C9: deleting the manual task at an in-range index `k` shrinks the page's
list by one, keeps every task below `k` at its index, and shifts every task
above `k` down by one. -/
theorem delete_task_spec (sess : Sess) (kvs : List (String × PyVal)) (page : String)
    (ts : List PyVal) (k : Nat)
    (hdata : sessData sess = .dict kvs)
    (hpage : getKey kvs page = some (.list ts))
    (hk : k < ts.length) :
    _get_tasks (_delete_task sess page k) page = .list (ts.eraseIdx k)
      ∧ (ts.eraseIdx k).length = ts.length - 1
      ∧ (∀ j, j < k → (ts.eraseIdx k)[j]? = ts[j]?)
      ∧ (∀ j, k ≤ j → (ts.eraseIdx k)[j]? = ts[j + 1]?) := by
  refine ⟨?_, ?_, ?_, ?_⟩
  · unfold _delete_task
    rw [hdata]
    show _get_tasks (match getKey kvs page with
      | some (.list ts) =>
          setKey sess "data" (.dict (setKey kvs page (.list (ts.eraseIdx k))))
      | _ => sess) page = .list (ts.eraseIdx k)
    rw [hpage]
    unfold _get_tasks
    rw [sessData_setKey_data]
    show getKeyD (setKey kvs page (.list (ts.eraseIdx k))) page (.list [])
      = .list (ts.eraseIdx k)
    unfold getKeyD
    rw [getKey_setKey_self]
    rfl
  · rw [List.length_eraseIdx]
    simp [hk]
  · intro j hj
    exact List.getElem?_eraseIdx_of_lt _ _ _ hj
  · intro j hj
    exact List.getElem?_eraseIdx_of_ge _ _ _ hj

/- ------------------------------------------------------------------ -/
/- Flag getter safety (C10).                                           -/
/- ------------------------------------------------------------------ -/

/-- C10: the flag getter is always Boolean-valued (by type); a key never set
reads false, and a stored value of any shape is coerced by Python
truthiness. -/
theorem get_flag_boolean_spec (sess : Sess) (key : String) :
    (getKey sess ("done-" ++ key) = Option.none → _get_flag sess key = false)
      ∧ (∀ v, getKey sess ("done-" ++ key) = some v →
          _get_flag sess key = pyTruthy v) := by
  constructor
  · intro h
    unfold _get_flag getKeyD
    rw [h]
    rfl
  · intro v h
    unfold _get_flag getKeyD
    rw [h]
    rfl

/- ------------------------------------------------------------------ -/
/- Monotonicity machinery (C7).                                        -/
/- ------------------------------------------------------------------ -/

theorem allAutoKeys_nodup : allAutoKeys.Nodup := by decide

theorem catProgress_map (sess : Sess) (tasks : List ResolvedTask) :
    (catProgress sess tasks).1
      = (tasks.map (fun t => t.key)).countP (fun x => _get_flag sess x) := by
  unfold catProgress
  rw [List.countP_map]
  rfl

theorem flag_fun_set (sess : Sess) (k : String) (b : Bool) :
    (fun x => _get_flag (_set_flag sess k b) x)
      = (fun x => if x = k then b else _get_flag sess x) :=
  funext (fun x => get_flag_set_flag sess k b x)

theorem catProgress_toggle_true (sess : Sess) (T : List ResolvedTask) (k : String)
    (hflag : _get_flag sess k = false) :
    (catProgress (_set_flag sess k true) T).1
      = (catProgress sess T).1 + (T.map (fun t => t.key)).count k := by
  rw [catProgress_map, catProgress_map, flag_fun_set]
  exact countP_toggle_true _ _ _ hflag

theorem catProgress_toggle_false (sess : Sess) (T : List ResolvedTask) (k : String)
    (hflag : _get_flag sess k = true) :
    (catProgress sess T).1
      = (catProgress (_set_flag sess k false) T).1 + (T.map (fun t => t.key)).count k := by
  rw [catProgress_map, catProgress_map, flag_fun_set]
  exact countP_toggle_false _ _ _ hflag

theorem keys_concat_eq (d : Int) :
    (_get_ferias_tasks (some d)).map (fun t => t.key)
        ++ (_get_passaporte_tasks (some d)).map (fun t => t.key)
        ++ (_get_inspsau_tasks (some d)).map (fun t => t.key)
        ++ (_get_pagamento_tasks (some d)).map (fun t => t.key)
        ++ (_get_raire_tasks (some d)).map (fun t => t.key)
      = allAutoKeys := by
  unfold allAutoKeys _get_passaporte_tasks _get_inspsau_tasks _get_pagamento_tasks
    _get_raire_tasks
  rw [autoTasks_keys_stable, autoTasks_keys_stable, autoTasks_keys_stable,
    autoTasks_keys_stable,
    autoTasks_keys_stable "pass" _PASSAPORTE_DEFS 0,
    autoTasks_keys_stable "insp" _INSPSAU_DEFS 0,
    autoTasks_keys_stable "pay" _PAGAMENTO_DEFS 0,
    autoTasks_keys_stable "raire" _RAIRE_DEFS 0]
  rfl

theorem autoDone_toggle_true (sess : Sess) (k : String) (d : Int)
    (hk : k ∈ allAutoKeys) (hflag : _get_flag sess k = false) :
    autoDone (_set_flag sess k true) (some d) = autoDone sess (some d) + 1 := by
  unfold autoDone _ferias_progress _passaporte_progress _inspsau_progress
    _pagamento_progress _raire_progress
  rw [catProgress_toggle_true sess _ k hflag, catProgress_toggle_true sess _ k hflag,
    catProgress_toggle_true sess _ k hflag, catProgress_toggle_true sess _ k hflag,
    catProgress_toggle_true sess _ k hflag]
  have hceq := keys_concat_eq d
  have hc : allAutoKeys.count k = 1 := List.count_eq_one_of_mem allAutoKeys_nodup hk
  rw [← hceq] at hc
  simp [List.count_append] at hc
  omega

theorem autoDone_toggle_false (sess : Sess) (k : String) (d : Int)
    (hk : k ∈ allAutoKeys) (hflag : _get_flag sess k = true) :
    autoDone sess (some d) = autoDone (_set_flag sess k false) (some d) + 1 := by
  unfold autoDone _ferias_progress _passaporte_progress _inspsau_progress
    _pagamento_progress _raire_progress
  rw [catProgress_toggle_false sess _ k hflag, catProgress_toggle_false sess _ k hflag,
    catProgress_toggle_false sess _ k hflag, catProgress_toggle_false sess _ k hflag,
    catProgress_toggle_false sess _ k hflag]
  have hceq := keys_concat_eq d
  have hc : allAutoKeys.count k = 1 := List.count_eq_one_of_mem allAutoKeys_nodup hk
  rw [← hceq] at hc
  simp [List.count_append] at hc
  omega

theorem manualDone_set_flag (sess : Sess) (k : String) (b : Bool) :
    manualDone (_set_flag sess k b) = manualDone sess := by
  unfold manualDone
  simp only [tasks_set_flag]

theorem manualTotal_set_flag (sess : Sess) (k : String) (b : Bool) :
    manualTotal (_set_flag sess k b) = manualTotal sess := by
  unfold manualTotal
  simp only [tasks_set_flag]

theorem autoTotal_const (a b : Sess) (ad : Option Int) :
    autoTotal a ad = autoTotal b ad := rfl

theorem autoTotal_at_date (sess : Sess) (d : Int) :
    autoTotal sess (some d) = 45 := rfl

theorem sessDate_of_auth (sess : Sess) (d : Int) (h : authSlot sess = PyVal.date d) :
    sessDate sess = some d := by
  unfold sessDate
  rw [h]

theorem overallCounts_of_date (sess : Sess) (d : Int)
    (h : authSlot sess = PyVal.date d) :
    overallCounts sess
      = (manualDone sess + autoDone sess (some d),
         manualTotal sess + autoTotal sess (some d)) := by
  unfold overallCounts
  rw [h, sessDate_of_auth sess d h]
  rfl

theorem overallCounts_flag_congr (a b : Sess)
    (hdata : ∀ page, _get_tasks a page = _get_tasks b page)
    (hauth : authSlot a = authSlot b)
    (hflag : ∀ x, _get_flag a x = _get_flag b x) :
    overallCounts a = overallCounts b := by
  have hm1 : manualDone a = manualDone b := by
    unfold manualDone
    simp only [hdata]
  have hm2 : manualTotal a = manualTotal b := by
    unfold manualTotal
    simp only [hdata]
  have hcat : ∀ T, (catProgress a T).1 = (catProgress b T).1 := by
    intro T
    rw [catProgress_map, catProgress_map, funext hflag]
  have had : ∀ ad, autoDone a ad = autoDone b ad := by
    intro ad
    unfold autoDone _ferias_progress _passaporte_progress _inspsau_progress
      _pagamento_progress _raire_progress
    rw [hcat, hcat, hcat, hcat, hcat]
  unfold overallCounts
  rw [hauth, hm1, hm2, had]
  have hsd : sessDate a = sessDate b := by
    unfold sessDate
    rw [hauth]
  rw [hsd, autoTotal_const a b]

theorem ratioOf_lt_succ (c t : Nat) (ht : 0 < t) : ratioOf c t < ratioOf (c + 1) t := by
  unfold ratioOf
  rw [if_neg (by omega), if_neg (by omega)]
  have hc : ((c : ℚ)) < (((c + 1 : Nat)) : ℚ) := by exact_mod_cast Nat.lt_succ_self c
  exact div_lt_div_of_pos_right hc (by exact_mod_cast ht)

/-- C7: for the overall-progress scope with an anchor date set and any
automatic key it counts: setting that flag false→true strictly increases the
ratio, setting it true→false strictly decreases it (the scope's total is
never 0 when a flag is counted), and toggling true→false→true restores the
exact original ratio. -/
theorem progress_monotonicity (sess : Sess) (k : String) (d : Int)
    (hauth : authSlot sess = PyVal.date d) (hk : k ∈ allAutoKeys) :
    (_get_flag sess k = false →
      _overall_progress sess < _overall_progress (_set_flag sess k true))
      ∧ (_get_flag sess k = true →
        _overall_progress (_set_flag sess k false) < _overall_progress sess)
      ∧ (_get_flag sess k = true →
        _overall_progress (_set_flag (_set_flag sess k false) k true)
          = _overall_progress sess) := by
  have hauth' : ∀ b, authSlot (_set_flag sess k b) = PyVal.date d := fun b => by
    rw [authSlot_set_flag, hauth]
  have hco := overallCounts_of_date sess d hauth
  have htot : (overallCounts sess).2 = manualTotal sess + 45 := by
    rw [hco, autoTotal_at_date]
  refine ⟨?_, ?_, ?_⟩
  · intro hflag
    have hco' := overallCounts_of_date (_set_flag sess k true) d (hauth' true)
    have h1 : (overallCounts (_set_flag sess k true)).1 = (overallCounts sess).1 + 1 := by
      rw [hco, hco', manualDone_set_flag, autoDone_toggle_true sess k d hk hflag]
      dsimp only
      omega
    have h2 : (overallCounts (_set_flag sess k true)).2 = (overallCounts sess).2 := by
      rw [hco, hco', manualTotal_set_flag, autoTotal_at_date, autoTotal_at_date]
    unfold _overall_progress
    rw [h1, h2]
    exact ratioOf_lt_succ _ _ (by omega)
  · intro hflag
    have hco' := overallCounts_of_date (_set_flag sess k false) d (hauth' false)
    have h1 : (overallCounts sess).1 = (overallCounts (_set_flag sess k false)).1 + 1 := by
      rw [hco, hco', manualDone_set_flag, autoDone_toggle_false sess k d hk hflag]
      dsimp only
      omega
    have h2 : (overallCounts (_set_flag sess k false)).2 = (overallCounts sess).2 := by
      rw [hco, hco', manualTotal_set_flag, autoTotal_at_date, autoTotal_at_date]
    unfold _overall_progress
    rw [h1, h2]
    exact ratioOf_lt_succ _ _ (by omega)
  · intro hflag
    have hext : ∀ x, _get_flag (_set_flag (_set_flag sess k false) k true) x
        = _get_flag sess x := by
      intro x
      rw [get_flag_set_flag, get_flag_set_flag]
      by_cases hx : x = k
      · simp [hx, hflag]
      · simp [hx]
    have hcounts := overallCounts_flag_congr (_set_flag (_set_flag sess k false) k true)
      sess
      (fun page => by rw [tasks_set_flag, tasks_set_flag])
      (by rw [authSlot_set_flag, authSlot_set_flag])
      hext
    unfold _overall_progress
    rw [hcounts]

/- ------------------------------------------------------------------ -/
/- Witnesses.                                                          -/
/- ------------------------------------------------------------------ -/

/-- Witness for `resolve_deadline_spec` at the spec's negative-offset
example: catalog `[(-10, "D")]` with anchor 2025-06-01 resolves to deadline
2025-06-11. -/
theorem resolve_deadline_spec_witness :
    ([((-10 : Int), "D")][0]? = some ((-10 : Int), "D"))
      ∧ ((autoTasks "x" [((-10 : Int), "D")] (some (daysFromCivil 2025 6 1)))[0]?
            = some { title := "D", deadline := daysFromCivil 2025 6 1 - (-10),
                     key := "x" ++ "-" ++ fmt02 (0 + 1) }
          ∧ ((-10 : Int) < 0 →
              daysFromCivil 2025 6 1 - (-10)
                  = daysFromCivil 2025 6 1 + (((-10 : Int).natAbs : Nat) : Int)
                ∧ daysFromCivil 2025 6 1 < daysFromCivil 2025 6 1 - (-10))
          ∧ (_get_ferias_tasks (some (daysFromCivil 2025 6 1))).map (fun t => t.deadline)
              = [daysFromCivil 2025 6 1 - 100, daysFromCivil 2025 6 1 - 30,
                 daysFromCivil 2025 6 1 - 1])
      ∧ daysFromCivil 2025 6 1 - (-10) = daysFromCivil 2025 6 11 :=
  ⟨rfl,
   resolve_deadline_spec "x" [((-10 : Int), "D")] (daysFromCivil 2025 6 1) 0 (-10) "D" rfl,
   by decide⟩

/-- Witness for `resolve_keys_spec` on the RAIRE catalog. -/
theorem resolve_keys_spec_witness :
    (0 < _RAIRE_DEFS.length)
      ∧ (((autoTasks "raire" _RAIRE_DEFS (some 0)).map (fun t => t.key))[0]?
            = some ("raire" ++ "-" ++ fmt02 (0 + 1))
          ∧ (autoTasks "raire" _RAIRE_DEFS (some 0)).map (fun t => t.key)
              = (autoTasks "raire" _RAIRE_DEFS (some 7)).map (fun t => t.key)
          ∧ allAutoKeys.Nodup) :=
  ⟨by decide, resolve_keys_spec "raire" _RAIRE_DEFS 0 7 0 (by decide)⟩

/-- Witness for `aggregate_spec`: the two conditional laws at the spec's
example groups. -/
theorem aggregate_spec_witness :
    (([((0 : Nat), (0 : Nat))].map Prod.snd).sum = 0
        ∧ aggregate [((0 : Nat), (0 : Nat))] = 0)
      ∧ (([((2 : Nat), (4 : Nat)), ((1 : Nat), (1 : Nat))].map Prod.snd).sum ≠ 0
        ∧ aggregate [((2 : Nat), (4 : Nat)), ((1 : Nat), (1 : Nat))]
            = (([((2 : Nat), (4 : Nat)), ((1 : Nat), (1 : Nat))].map Prod.fst).sum : ℚ)
                / (([((2 : Nat), (4 : Nat)), ((1 : Nat), (1 : Nat))].map Prod.snd).sum : ℚ)) :=
  ⟨⟨by decide, aggregate_spec.2.2.2.1 _ (by decide)⟩,
   ⟨by decide, aggregate_spec.2.2.2.2.1 _ (by decide)⟩⟩

/-- Session for the round-trip witness. -/
def sessW4 : Sess :=
  [("data", PyVal.dict []), ("auth_date", PyVal.none), ("done-x", PyVal.bool true)]

/-- Witness for `serialize_roundtrip`. -/
theorem serialize_roundtrip_witness :
    sessWF sessW4
      ∧ ((import_json sessW4 (export_payload sessW4)).1 = ImportOutcome.success
          ∧ observEq (import_json sessW4 (export_payload sessW4)).2 sessW4) :=
  ⟨⟨by decide, ⟨[], rfl⟩, Or.inl rfl⟩,
   serialize_roundtrip sessW4 ⟨by decide, ⟨[], rfl⟩, Or.inl rfl⟩⟩

/-- Witness for `import_failure_spec`: a non-dict input, and a dict input
with an unparsable truthy `auth_date`. -/
theorem import_failure_spec_witness :
    ((∀ fields, PyVal.int 3 ≠ PyVal.dict fields)
        ∧ import_json ([] : Sess) (PyVal.int 3) = (ImportOutcome.invalidJson, ([] : Sess)))
      ∧ ((import_json ([] : Sess) (PyVal.dict [("auth_date", PyVal.str "x")])).1
            = ImportOutcome.importFailure
          ∧ authSlot (import_json ([] : Sess) (PyVal.dict [("auth_date", PyVal.str "x")])).2
              = authSlot ([] : Sess)
          ∧ (∀ key,
              _get_flag (import_json ([] : Sess) (PyVal.dict [("auth_date", PyVal.str "x")])).2 key
                = _get_flag ([] : Sess) key)
          ∧ sessData (import_json ([] : Sess) (PyVal.dict [("auth_date", PyVal.str "x")])).2
              = .dict (pagesDefault [])) :=
  ⟨⟨fun fields h => PyVal.noConfusion h,
    (import_failure_spec ([] : Sess) (PyVal.int 3)).1 (fun fields h => PyVal.noConfusion h)⟩,
   (import_failure_spec ([] : Sess) (PyVal.dict [("auth_date", PyVal.str "x")])).2
     [("auth_date", PyVal.str "x")] [] rfl rfl rfl
     (fun s h => by
       injection h with h1
       subst h1
       rfl)⟩

/-- Witness for `import_flags_merge_spec`: a snapshot whose extras bind
`done-y` to a truthy string, imported into a session with `done-z` set. -/
theorem import_flags_merge_spec_witness :
    (getKeyD [("extras", PyVal.dict [("done-y", PyVal.str "t")])] "lists" (.dict [])
        = .dict []
      ∧ authOkField (getKeyD [("extras", PyVal.dict [("done-y", PyVal.str "t")])]
          "auth_date" PyVal.none)
      ∧ getKeyD [("extras", PyVal.dict [("done-y", PyVal.str "t")])] "extras" (.dict [])
          = .dict [("done-y", PyVal.str "t")]
      ∧ ([("done-y", PyVal.str "t")].map Prod.fst).Nodup)
      ∧ ((import_json [("done-z", PyVal.bool true)]
            (.dict [("extras", PyVal.dict [("done-y", PyVal.str "t")])])).1
            = ImportOutcome.success
          ∧ ∀ key, _get_flag (import_json [("done-z", PyVal.bool true)]
              (.dict [("extras", PyVal.dict [("done-y", PyVal.str "t")])])).2 key
              = match getKey [("done-y", PyVal.str "t")] ("done-" ++ key) with
                | some v => pyTruthy v
                | Option.none => _get_flag [("done-z", PyVal.bool true)] key) :=
  ⟨⟨rfl, Or.inl rfl, rfl, by decide⟩,
   import_flags_merge_spec [("done-z", PyVal.bool true)]
     [("extras", PyVal.dict [("done-y", PyVal.str "t")])] [] [("done-y", PyVal.str "t")]
     rfl (Or.inl rfl) rfl (by decide)⟩

/-- Session for the monotonicity witness. -/
def sessW7 : Sess :=
  [("auth_date", PyVal.date 0), ("data", PyVal.dict [])]

/-- Witness for `progress_monotonicity` at the first ferias key. -/
theorem progress_monotonicity_witness :
    authSlot sessW7 = PyVal.date 0
      ∧ "ferias-1" ∈ allAutoKeys
      ∧ ((_get_flag sessW7 "ferias-1" = false →
            _overall_progress sessW7
              < _overall_progress (_set_flag sessW7 "ferias-1" true))
          ∧ (_get_flag sessW7 "ferias-1" = true →
            _overall_progress (_set_flag sessW7 "ferias-1" false)
              < _overall_progress sessW7)
          ∧ (_get_flag sessW7 "ferias-1" = true →
            _overall_progress (_set_flag (_set_flag sessW7 "ferias-1" false) "ferias-1" true)
              = _overall_progress sessW7)) :=
  ⟨rfl, by decide, progress_monotonicity sessW7 "ferias-1" 0 rfl (by decide)⟩

/-- Session for the deletion witness. -/
def sessW9 : Sess :=
  [("data", PyVal.dict [("RAIRE", PyVal.list [PyVal.str "a", PyVal.str "b"])])]

/-- Witness for `delete_task_spec`: delete index 0 of a two-task list. -/
theorem delete_task_spec_witness :
    sessData sessW9 = .dict [("RAIRE", PyVal.list [PyVal.str "a", PyVal.str "b"])]
      ∧ getKey [("RAIRE", PyVal.list [PyVal.str "a", PyVal.str "b"])] "RAIRE"
          = some (.list [PyVal.str "a", PyVal.str "b"])
      ∧ 0 < ([PyVal.str "a", PyVal.str "b"] : List PyVal).length
      ∧ (_get_tasks (_delete_task sessW9 "RAIRE" 0) "RAIRE"
            = .list (([PyVal.str "a", PyVal.str "b"] : List PyVal).eraseIdx 0)
          ∧ (([PyVal.str "a", PyVal.str "b"] : List PyVal).eraseIdx 0).length
              = ([PyVal.str "a", PyVal.str "b"] : List PyVal).length - 1
          ∧ (∀ j, j < 0 →
              (([PyVal.str "a", PyVal.str "b"] : List PyVal).eraseIdx 0)[j]?
                = ([PyVal.str "a", PyVal.str "b"] : List PyVal)[j]?)
          ∧ (∀ j, 0 ≤ j →
              (([PyVal.str "a", PyVal.str "b"] : List PyVal).eraseIdx 0)[j]?
                = ([PyVal.str "a", PyVal.str "b"] : List PyVal)[j + 1]?)) :=
  ⟨rfl, rfl, by decide,
   delete_task_spec sessW9 [("RAIRE", PyVal.list [PyVal.str "a", PyVal.str "b"])] "RAIRE"
     [PyVal.str "a", PyVal.str "b"] 0 rfl rfl (by decide)⟩

/-- Witness for `get_flag_boolean_spec`: an unset key reads false; a string
value stored under a flag key is coerced by truthiness. -/
theorem get_flag_boolean_spec_witness :
    (getKey ([] : Sess) ("done-" ++ "a") = Option.none ∧ _get_flag ([] : Sess) "a" = false)
      ∧ (getKey [("done-b", PyVal.str "yes")] ("done-" ++ "b") = some (PyVal.str "yes")
          ∧ _get_flag [("done-b", PyVal.str "yes")] "b" = pyTruthy (PyVal.str "yes")) :=
  ⟨⟨rfl, (get_flag_boolean_spec ([] : Sess) "a").1 rfl⟩,
   ⟨rfl, (get_flag_boolean_spec [("done-b", PyVal.str "yes")] "b").2 (PyVal.str "yes") rfl⟩⟩
